import Mathlib

/-!
Shallow embedding of the arky CLI core (transport client, error model,
data-overlay builder, config resolution) and proofs of its specification
claims.  Sources: src/client.rs, src/error.rs, src/commands/mod.rs,
src/config.rs, src/main.rs.

External library calls (serde_json string parsing, the mime crate's
parser, stdin/file reads, the HTTP transport) are modelled as explicit
function parameters; everything the repository itself defines is
translated concretely.
-/

namespace Arky

/-- JSON values, mirroring serde_json::Value.  Numbers are modelled as
integers, which covers every number the embedded code inspects
(HTTP-ish status codes); objects are ordered key/value lists as produced
by a JSON parser. -/
inductive Value where
  | null : Value
  | bool (b : Bool) : Value
  | num (n : Int) : Value
  | str (s : String) : Value
  | arr (elems : List Value) : Value
  | obj (fields : List (String × Value)) : Value

/-- error.rs: `ValidationError { field, error }`. -/
structure ValidationError where
  field : String
  error : String
deriving DecidableEq, Repr

/-- error.rs: the `CliError` taxonomy.  The payloads of the variants that
wrap foreign error types (reqwest, io, serde_json) are modelled as their
rendered message strings. -/
inductive CliError where
  | http (e : String)
  | api (status : Nat) (message : String) (error : Option String)
      (validation_errors : List ValidationError)
  | config (msg : String)
  | invalidInput (msg : String)
  | ioErr (e : String)
  | json (e : String)

/-- error.rs: `ApiErrorResponse` as deserialized by serde with
`rename_all = "camelCase"` and `#[serde(default)]` on
`validation_errors`. -/
structure ApiErrorResponse where
  message : Option String
  error : Option String
  status_code : Option Nat
  validation_errors : List ValidationError

/-! ### Association-list operations

serde_json's `Map` observed through lookup, and its `insert`. -/

/-- Lookup of a key in a JSON object's field list (first binding wins,
as in any parsed JSON object, whose keys are distinct). -/
def lookupKV : List (String × Value) → String → Option Value
  | [], _ => none
  | (k0, v0) :: rest, k => if k0 = k then some v0 else lookupKV rest k

/-- `Map::insert`: overwrite the binding of `k` if present, otherwise
add it. -/
def insertKV : List (String × Value) → String → Value → List (String × Value)
  | [], k, v => [(k, v)]
  | (k0, v0) :: rest, k, v =>
    if k0 = k then (k, v) :: rest else (k0, v0) :: insertKV rest k v

/-! ### commands/mod.rs -/

/-- commands/mod.rs `merge_data`: when both arguments are objects, insert
every overlay entry into the base map, in overlay order; otherwise do
nothing.  The Rust function mutates `base`; here it returns the new
base. -/
def merge_data (base : Value) (overlay : Value) : Value :=
  match base, overlay with
  | Value.obj base_map, Value.obj overlay_map =>
      Value.obj (overlay_map.foldl (fun m kv => insertKV m kv.1 kv.2) base_map)
  | b, _ => b

/-- Rust `str::starts_with(c: char)`: the first character equals `c`. -/
def startsWithChar (s : String) (c : Char) : Bool :=
  match s.toList with
  | [] => false
  | c0 :: _ => c0 = c

/-- commands/mod.rs `parse_data`.  `fromStr` is serde_json::from_str,
`stdinRead` the result of reading stdin to a string, `readFile` the
result of `fs::read_to_string`; each returns its error rendered as a
string. -/
def parse_data (fromStr : String → Except String Value)
    (stdinRead : Except String String)
    (readFile : String → Except String String) :
    Option String → Except CliError Value
  | none => Except.ok (Value.obj [])
  | some s =>
    if s = "-" then
      match stdinRead with
      | Except.error e =>
          Except.error (CliError.invalidInput ("Failed to read stdin: " ++ e))
      | Except.ok buf =>
          match fromStr buf with
          | Except.ok v => Except.ok v
          | Except.error e =>
              Except.error (CliError.invalidInput ("Invalid JSON from stdin: " ++ e))
    else if startsWithChar s '@' then
      let path := s.drop 1
      match readFile path with
      | Except.error e =>
          Except.error
            (CliError.invalidInput ("Failed to read file " ++ path ++ ": " ++ e))
      | Except.ok content =>
          match fromStr content with
          | Except.ok v => Except.ok v
          | Except.error e =>
              Except.error
                (CliError.invalidInput ("Invalid JSON in " ++ path ++ ": " ++ e))
    else
      match fromStr s with
      | Except.ok v => Except.ok v
      | Except.error e =>
          Except.error (CliError.invalidInput ("Invalid JSON: " ++ e))

/-! ### config.rs -/

/-- config.rs `Config`: the on-disk config file's four optional
fields. -/
structure Config where
  base_url : Option String
  business_id : Option String
  token : Option String
  format : Option String

/-- config.rs `ResolvedConfig`. -/
structure ResolvedConfig where
  base_url : String
  business_id : Option String
  token : Option String
  format : String

/-- config.rs `Config::resolve`: CLI flag, then environment variable,
then config-file value, then hardcoded default.  `env` is
`std::env::var` (None when the variable is unset), `file` the loaded
config file (a parameter here; the Rust function loads it itself). -/
def Config.resolve (env : String → Option String) (file : Config)
    (flag_base_url flag_business_id flag_token flag_format : Option String) :
    ResolvedConfig :=
  { base_url :=
      (((flag_base_url.orElse fun _ => env "ARKY_BASE_URL").orElse
          fun _ => file.base_url).getD "http://localhost:3000")
    business_id :=
      ((flag_business_id.orElse fun _ => env "ARKY_BUSINESS_ID").orElse
        fun _ => file.business_id)
    token :=
      ((flag_token.orElse fun _ => env "ARKY_TOKEN").orElse
        fun _ => file.token)
    format :=
      (((flag_format.orElse fun _ => env "ARKY_FORMAT").orElse
          fun _ => file.format).getD "json") }

/-! ### client.rs: headers and requests -/

/-- A byte of an HTTP header value is legal when it is a horizontal tab
or a visible/obs-text byte (32..=255 except DEL); this is the acceptance
condition of `HeaderValue::from_str`.  Characters above 127 encode to
UTF-8 bytes that are all ≥ 128, hence legal, so checking chars
suffices. -/
def headerByteOk (c : Char) : Bool :=
  c.toNat = 9 || (32 ≤ c.toNat && c.toNat ≠ 127)

/-- Acceptance of `HeaderValue::from_str(s)`. -/
def isValidHeaderValue (s : String) : Bool :=
  s.toList.all headerByteOk

/-- `HeaderMap::insert` observed on a (lowercased-name, value) list:
replace the binding if the name is present, otherwise append. -/
def hmInsert : List (String × String) → String → String → List (String × String)
  | [], k, v => [(k, v)]
  | (k0, v0) :: rest, k, v =>
    if k0 = k then (k, v) :: rest else (k0, v0) :: hmInsert rest k v

/-- Header-map lookup by (lowercased) name. -/
def hmLookup : List (String × String) → String → Option String
  | [], _ => none
  | (k0, v0) :: rest, k => if k0 = k then some v0 else hmLookup rest k

/-- client.rs `ArkyClient` (the reqwest handle is elided; it carries no
observable state). -/
structure ArkyClient where
  base_url : String
  business_id : Option String
  token : Option String

/-- client.rs `ArkyClient::headers`: content-type and accept set to
application/json, plus `Authorization: Bearer <token>` when a token is
configured and the bearer string is a legal header value (reqwest
header names are stored lowercased). -/
def ArkyClient.headers (c : ArkyClient) : List (String × String) :=
  let h := hmInsert (hmInsert [] "content-type" "application/json")
    "accept" "application/json"
  match c.token with
  | none => h
  | some t =>
      if isValidHeaderValue ("Bearer " ++ t) then
        hmInsert h "authorization" ("Bearer " ++ t)
      else h

/-- client.rs `ArkyClient::auth_headers`: accept only, plus the same
conditional bearer token. -/
def ArkyClient.auth_headers (c : ArkyClient) : List (String × String) :=
  let h := hmInsert [] "accept" "application/json"
  match c.token with
  | none => h
  | some t =>
      if isValidHeaderValue ("Bearer " ++ t) then
        hmInsert h "authorization" ("Bearer " ++ t)
      else h

/-- HTTP method of an outbound request. -/
inductive Method where
  | GET | POST | PUT | DELETE
deriving DecidableEq, Repr

/-- The observable content of one outbound HTTP request as the client
builds it (before the transport runs). -/
structure Request where
  method : Method
  url : String
  headers : List (String × String)
  query : List (String × String)
  body : Option Value

/-- client.rs `get`: the request it sends. -/
def ArkyClient.getRequest (c : ArkyClient) (path : String)
    (params : List (String × String)) : Request :=
  { method := Method.GET, url := c.base_url ++ path, headers := c.headers
    query := params, body := none }

/-- client.rs `post`: the request it sends. -/
def ArkyClient.postRequest (c : ArkyClient) (path : String) (body : Value) :
    Request :=
  { method := Method.POST, url := c.base_url ++ path, headers := c.headers
    query := [], body := some body }

/-- client.rs `put`: the request it sends. -/
def ArkyClient.putRequest (c : ArkyClient) (path : String) (body : Value) :
    Request :=
  { method := Method.PUT, url := c.base_url ++ path, headers := c.headers
    query := [], body := some body }

/-- client.rs `delete`: the request it sends. -/
def ArkyClient.deleteRequest (c : ArkyClient) (path : String) : Request :=
  { method := Method.DELETE, url := c.base_url ++ path, headers := c.headers
    query := [], body := none }

/-- client.rs `delete_with_params`: the request it sends. -/
def ArkyClient.deleteWithParamsRequest (c : ArkyClient) (path : String)
    (params : List (String × String)) : Request :=
  { method := Method.DELETE, url := c.base_url ++ path, headers := c.headers
    query := params, body := none }

/-- client.rs `upload`: method, url and headers of the multipart request
(the form parts are built by `buildFormParts`). -/
def ArkyClient.uploadRequest (c : ArkyClient) (path : String) : Request :=
  { method := Method.POST, url := c.base_url ++ path
    headers := c.auth_headers, query := [], body := none }

/-! ### client.rs: multipart form construction -/

/-- One multipart part as `upload` builds it: part name, file name,
bytes, mime type. -/
structure Part where
  name : String
  filename : String
  data : List Nat
  mime : String
deriving DecidableEq, Repr

/-- The loop body of `upload`, from index `i`: each file becomes a part
named `files[i]`; `Part::mime_str` failure (`mimeParse` is the mime
crate's parser, returning its error message) aborts with InvalidInput. -/
def buildFormPartsFrom (mimeParse : String → Except String Unit) :
    Nat → List (String × List Nat × String) → Except CliError (List Part)
  | _, [] => Except.ok []
  | i, (filename, data, mime) :: rest =>
    match mimeParse mime with
    | Except.error e =>
        Except.error (CliError.invalidInput ("Invalid MIME type: " ++ e))
    | Except.ok _ =>
        match buildFormPartsFrom mimeParse (i + 1) rest with
        | Except.ok parts =>
            Except.ok
              ({ name := "files[" ++ toString i ++ "]", filename := filename
                 data := data, mime := mime } :: parts)
        | Except.error e => Except.error e

/-- client.rs `upload`'s form: parts named `files[0]`, `files[1]`, … in
input order, or the first mime failure. -/
def buildFormParts (mimeParse : String → Except String Unit)
    (files : List (String × List Nat × String)) : Except CliError (List Part) :=
  buildFormPartsFrom mimeParse 0 files

/-! ### client.rs: response handling -/

/-- serde's deserialization of a `String` field's value. -/
def decodeString : Value → Option String
  | Value.str s => some s
  | _ => none

/-- serde's deserialization of an `Option<String>` field's value
(null ↦ None). -/
def decodeOptString : Value → Option (Option String)
  | Value.null => some none
  | Value.str s => some (some s)
  | _ => none

/-- serde's deserialization of an `Option<u16>` field's value. -/
def decodeOptU16 : Value → Option (Option Nat)
  | Value.null => some none
  | Value.num n => if 0 ≤ n ∧ n < 65536 then some (some n.toNat) else none
  | _ => none

/-- serde's deserialization of one `ValidationError` (both fields
required strings; unknown fields ignored). -/
def decodeValidationError : Value → Option ValidationError
  | Value.obj fields =>
    match lookupKV fields "field", lookupKV fields "error" with
    | some fv, some ev =>
      match decodeString fv, decodeString ev with
      | some f, some e => some { field := f, error := e }
      | _, _ => none
    | _, _ => none
  | _ => none

/-- serde's deserialization of `Vec<ValidationError>`. -/
def decodeValidationErrors : Value → Option (List ValidationError)
  | Value.arr elems =>
      elems.foldr
        (fun v acc =>
          match decodeValidationError v, acc with
          | some ve, some l => some (ve :: l)
          | _, _ => none)
        (some [])
  | _ => none

/-- serde's deserialization of `ApiErrorResponse` from a JSON value:
camelCase field names, every field optional except that present fields
must have the right shape, `validationErrors` defaulting to the empty
list, unknown fields ignored. -/
def decodeApiErrorResponse : Value → Option ApiErrorResponse
  | Value.obj fields =>
    let msg := match lookupKV fields "message" with
      | none => some none
      | some v => decodeOptString v
    let err := match lookupKV fields "error" with
      | none => some none
      | some v => decodeOptString v
    let sc := match lookupKV fields "statusCode" with
      | none => some none
      | some v => decodeOptU16 v
    let ves := match lookupKV fields "validationErrors" with
      | none => some []
      | some v => decodeValidationErrors v
    match msg, err, sc, ves with
    | some m, some e, some s, some l =>
        some { message := m, error := e, status_code := s
               validation_errors := l }
    | _, _, _, _ => none
  | _ => none

/-- `serde_json::from_str::<ApiErrorResponse>`: parse the body text with
the JSON parser `fromStr`, then deserialize the structure; either
failure yields none (the Rust code only observes success vs failure via
`unwrap_or`). -/
def parseApiError (fromStr : String → Except String Value) (body : String) :
    Option ApiErrorResponse :=
  match fromStr body with
  | Except.error _ => none
  | Except.ok v => decodeApiErrorResponse v

/-- client.rs `handle_response`.  `status` is the HTTP status;
`bodyRead` is the result of `resp.text().await` (an `Err` models a
transport failure while reading the body, which `?` converts to the
Http error kind); `fromStr` is serde_json's string parser. -/
def handle_response (fromStr : String → Except String Value)
    (status : Nat) (bodyRead : Except String String) : Except CliError Value :=
  if status = 204 then Except.ok Value.null
  else
    match bodyRead with
    | Except.error e => Except.error (CliError.http e)
    | Except.ok body =>
      if 400 ≤ status then
        let api_err := (parseApiError fromStr body).getD
          { message := some body, error := none, status_code := some status
            validation_errors := [] }
        Except.error
          (CliError.api status (api_err.message.getD "Request failed")
            api_err.error api_err.validation_errors)
      else if body = "" then Except.ok Value.null
      else
        match fromStr body with
        | Except.ok v => Except.ok v
        | Except.error e => Except.error (CliError.json e)

/-- Lookup inside a JSON value that is an object; none otherwise. -/
def objLookup : Value → String → Option Value
  | Value.obj fields, k => lookupKV fields k
  | _, _ => none

/-- Whether a JSON value is an object. -/
def Value.isObj : Value → Bool
  | Value.obj _ => true
  | _ => false

/-! ### Association-list lemmas -/

theorem lookupKV_insertKV_self (m : List (String × Value)) (k : String)
    (v : Value) : lookupKV (insertKV m k v) k = some v := by
  induction m with
  | nil => simp [insertKV, lookupKV]
  | cons kv rest ih =>
    obtain ⟨k0, v0⟩ := kv
    by_cases h : k0 = k
    · simp [insertKV, h, lookupKV]
    · simp [insertKV, h, lookupKV, ih]

theorem lookupKV_insertKV_ne (m : List (String × Value)) (k k' : String)
    (v : Value) (h : k' ≠ k) :
    lookupKV (insertKV m k v) k' = lookupKV m k' := by
  induction m with
  | nil =>
    simp only [insertKV, lookupKV]
    rw [if_neg fun hh => h hh.symm]
  | cons kv rest ih =>
    obtain ⟨k0, v0⟩ := kv
    by_cases h0 : k0 = k
    · subst h0
      simp only [insertKV, if_pos rfl, lookupKV]
      rw [if_neg fun hh => h hh.symm, if_neg fun hh => h hh.symm]
    · simp only [insertKV, if_neg h0, lookupKV]
      by_cases h1 : k0 = k'
      · simp [h1]
      · simp [h1, ih]

theorem lookupKV_foldl_insert_not_mem (overlay : List (String × Value))
    (base : List (String × Value)) (k : String)
    (h : k ∉ overlay.map Prod.fst) :
    lookupKV (overlay.foldl (fun m kv => insertKV m kv.1 kv.2) base) k =
      lookupKV base k := by
  induction overlay generalizing base with
  | nil => rfl
  | cons kv rest ih =>
    rw [List.map_cons, List.mem_cons] at h
    push_neg at h
    obtain ⟨h1, h2⟩ := h
    simp only [List.foldl_cons]
    rw [ih _ h2, lookupKV_insertKV_ne _ _ _ _ h1]

theorem lookupKV_foldl_insert_mem (overlay : List (String × Value))
    (base : List (String × Value)) (k : String) (v : Value)
    (hnd : (overlay.map Prod.fst).Nodup) (h : lookupKV overlay k = some v) :
    lookupKV (overlay.foldl (fun m kv => insertKV m kv.1 kv.2) base) k =
      some v := by
  induction overlay generalizing base with
  | nil => simp [lookupKV] at h
  | cons kv rest ih =>
    obtain ⟨k0, v0⟩ := kv
    rw [List.map_cons, List.nodup_cons] at hnd
    obtain ⟨hk0, hnd'⟩ := hnd
    simp only [List.foldl_cons]
    by_cases hkk : k0 = k
    · subst hkk
      have hv : v0 = v := by simpa [lookupKV] using h
      subst hv
      rw [lookupKV_foldl_insert_not_mem _ _ _ hk0]
      exact lookupKV_insertKV_self _ _ _
    · have h' : lookupKV rest k = some v := by simpa [lookupKV, hkk] using h
      exact ih _ hnd' h'

theorem not_mem_keys_of_lookupKV_none (l : List (String × Value)) (k : String)
    (h : lookupKV l k = none) : k ∉ l.map Prod.fst := by
  induction l with
  | nil => simp
  | cons kv rest ih =>
    obtain ⟨k0, v0⟩ := kv
    by_cases h0 : k0 = k
    · simp [lookupKV, h0] at h
    · simp only [lookupKV, if_neg h0] at h
      simp only [List.map_cons, List.mem_cons]
      push_neg
      exact ⟨fun hh => h0 hh.symm, ih h⟩

/-! ### Claim theorems: data-overlay builder -/

/-- Claim C4: merging two JSON objects gives every overlay key exactly
the overlay's value (overlay wins on shared keys, the replacement being
shallow and wholesale), and leaves keys outside the overlay bound as in
the base. -/
theorem merge_data_overlay_wins (base_map overlay_map : List (String × Value))
    (k : String) (hnd : (overlay_map.map Prod.fst).Nodup) :
    (∀ v, lookupKV overlay_map k = some v →
      objLookup (merge_data (Value.obj base_map) (Value.obj overlay_map)) k =
        some v) ∧
    (lookupKV overlay_map k = none →
      objLookup (merge_data (Value.obj base_map) (Value.obj overlay_map)) k =
        lookupKV base_map k) := by
  constructor
  · intro v hv
    simpa [merge_data, objLookup] using
      lookupKV_foldl_insert_mem overlay_map base_map k v hnd hv
  · intro hnone
    simpa [merge_data, objLookup] using
      lookupKV_foldl_insert_not_mem overlay_map base_map k
        (not_mem_keys_of_lookupKV_none _ _ hnone)

theorem merge_data_overlay_wins_witness :
    objLookup
        (merge_data
          (Value.obj [("a", Value.num 1), ("b", Value.obj [("x", Value.num 1)])])
          (Value.obj [("b", Value.obj [("y", Value.num 2)]),
            ("c", Value.arr [Value.num 3])])) "b" =
      some (Value.obj [("y", Value.num 2)]) :=
  (merge_data_overlay_wins
    [("a", Value.num 1), ("b", Value.obj [("x", Value.num 1)])]
    [("b", Value.obj [("y", Value.num 2)]), ("c", Value.arr [Value.num 3])]
    "b" (by decide)).1 _ rfl

/-- Claim C5: when either argument of `merge_data` is not a JSON object,
the merge is a silent no-op: the base comes back unchanged (and the
function cannot raise an error, as its result type shows). -/
theorem merge_data_non_object_noop (base overlay : Value)
    (h : base.isObj = false ∨ overlay.isObj = false) :
    merge_data base overlay = base := by
  cases base <;> cases overlay <;>
    simp_all [merge_data, Value.isObj]

theorem merge_data_non_object_noop_witness :
    merge_data (Value.arr [Value.num 1]) (Value.obj [("a", Value.num 2)]) =
      Value.arr [Value.num 1] :=
  merge_data_non_object_noop _ _ (Or.inl rfl)

/-- Claim C6: `parse_data` of no argument is the empty JSON object —
which is neither `null` nor an array — and on an inline string (not
`"-"`, not starting with `"@"`) it returns exactly what the JSON parser
yields, a parse failure becoming an InvalidInput error. -/
theorem parse_data_inline (fromStr : String → Except String Value)
    (stdinRead : Except String String)
    (readFile : String → Except String String) :
    (parse_data fromStr stdinRead readFile none = Except.ok (Value.obj []) ∧
      Value.obj [] ≠ Value.null ∧ ∀ l, Value.obj [] ≠ Value.arr l) ∧
    ∀ s, s ≠ "-" → startsWithChar s '@' = false →
      parse_data fromStr stdinRead readFile (some s) =
        match fromStr s with
        | Except.ok v => Except.ok v
        | Except.error e =>
            Except.error (CliError.invalidInput ("Invalid JSON: " ++ e)) := by
  refine ⟨⟨rfl, by simp, by simp⟩, ?_⟩
  intro s hdash hat
  simp [parse_data, hdash, hat]

theorem parse_data_inline_witness :
    parse_data (fun s => if s = "true" then Except.ok (Value.bool true)
        else Except.error "syntax") (Except.error "closed")
      (fun _ => Except.error "missing") (some "true") =
      Except.ok (Value.bool true) := by
  have h := (parse_data_inline
    (fun s => if s = "true" then Except.ok (Value.bool true)
      else Except.error "syntax")
    (Except.error "closed") (fun _ => Except.error "missing")).2
    "true" (by decide) (by decide)
  simpa using h

/-! ### Claim theorems: response classification -/

/-- Claim C1: on a status ≥ 400 response, `handle_response` fails with an
Api error: when the body deserializes as an `ApiErrorResponse`, the error
carries the HTTP status, the body's message defaulted to "Request
failed" when absent, the optional error string and the validation errors
in body order; when it does not, the error is synthesized from the raw
body text as the message, with no error string and no validation
errors. -/
theorem handle_response_error_classification
    (fromStr : String → Except String Value) (status : Nat) (body : String)
    (h : 400 ≤ status) :
    (∀ a, parseApiError fromStr body = some a →
      handle_response fromStr status (Except.ok body) =
        Except.error (CliError.api status (a.message.getD "Request failed")
          a.error a.validation_errors)) ∧
    (parseApiError fromStr body = none →
      handle_response fromStr status (Except.ok body) =
        Except.error (CliError.api status body none [])) := by
  have h204 : ¬ status = 204 := by omega
  constructor
  · intro a ha
    simp [handle_response, h204, h, ha]
  · intro ha
    simp [handle_response, h204, h, ha]

/-- The spec's 422 example: a body holding only one validation error
entry. -/
def fromStr422 : String → Except String Value := fun s =>
  if s = "b422" then
    Except.ok (Value.obj [("validationErrors",
      Value.arr [Value.obj [("field", Value.str "email"),
        ("error", Value.str "required")]])])
  else Except.error "syntax"

theorem handle_response_error_classification_witness :
    handle_response fromStr422 422 (Except.ok "b422") =
      Except.error (CliError.api 422 "Request failed" none
        [{ field := "email", error := "required" }]) :=
  (handle_response_error_classification fromStr422 422 "b422"
    (by decide)).1 _ rfl

/-- Claim C2: a 204 response yields `Value.null` without the body being
read: the result is the same for every body-read outcome, including a
failing read, which would otherwise surface as an Http error. -/
theorem handle_response_204 (fromStr : String → Except String Value)
    (bodyRead : Except String String) :
    handle_response fromStr 204 bodyRead = Except.ok Value.null := rfl

/-- Claim C3: on a status < 400 (and non-204) response, an empty body
yields `Value.null`; otherwise the body is parsed as JSON and returned,
and a parse failure surfaces as the Json error kind, which never equals
an Api error. -/
theorem handle_response_success (fromStr : String → Except String Value)
    (status : Nat) (body : String) (hlt : status < 400)
    (h204 : status ≠ 204) :
    (body = "" →
      handle_response fromStr status (Except.ok body) =
        Except.ok Value.null) ∧
    (body ≠ "" →
      (∀ v, fromStr body = Except.ok v →
        handle_response fromStr status (Except.ok body) = Except.ok v) ∧
      (∀ e, fromStr body = Except.error e →
        handle_response fromStr status (Except.ok body) =
          Except.error (CliError.json e) ∧
        ∀ s m er ve, CliError.json e ≠ CliError.api s m er ve)) := by
  have hge : ¬ 400 ≤ status := by omega
  refine ⟨fun hb => by simp [handle_response, h204, hge, hb], fun hb => ⟨?_, ?_⟩⟩
  · intro v hv
    simp [handle_response, h204, hge, hb, hv]
  · intro e he
    exact ⟨by simp [handle_response, h204, hge, hb, he], by intro s m er ve h; cases h⟩

theorem handle_response_success_witness :
    handle_response (fun _ => Except.error "syntax") 200 (Except.ok "") =
      Except.ok Value.null :=
  (handle_response_success (fun _ => Except.error "syntax") 200 ""
    (by decide) (by decide)).1 rfl

/-- Claim C10: on a status ≥ 400 response the Api error's status field is
the HTTP status itself, and the `statusCode` field deserialized from the
body is discarded: two bodies whose decoded errors agree on everything
but `statusCode` classify identically. -/
theorem handle_response_ignores_body_statusCode
    (fromStr : String → Except String Value) (status : Nat) (b1 b2 : String)
    (a1 a2 : ApiErrorResponse) (h : 400 ≤ status)
    (h1 : parseApiError fromStr b1 = some a1)
    (h2 : parseApiError fromStr b2 = some a2)
    (hm : a1.message = a2.message) (he : a1.error = a2.error)
    (hv : a1.validation_errors = a2.validation_errors) :
    (∃ m e ve, handle_response fromStr status (Except.ok b1) =
      Except.error (CliError.api status m e ve)) ∧
    handle_response fromStr status (Except.ok b1) =
      handle_response fromStr status (Except.ok b2) := by
  have h204 : ¬ status = 204 := by omega
  constructor
  · exact ⟨a1.message.getD "Request failed", a1.error, a1.validation_errors,
      by simp [handle_response, h204, h, h1]⟩
  · simp [handle_response, h204, h, h1, h2, hm, he, hv]

/-- Two bodies decoding to API errors that differ only in the
`statusCode` field (999 versus 55). -/
def fromStrSC : String → Except String Value := fun s =>
  if s = "b1" then
    Except.ok (Value.obj [("message", Value.str "boom"),
      ("statusCode", Value.num 999)])
  else if s = "b2" then
    Except.ok (Value.obj [("message", Value.str "boom"),
      ("statusCode", Value.num 55)])
  else Except.error "syntax"

theorem handle_response_ignores_body_statusCode_witness :
    handle_response fromStrSC 404 (Except.ok "b1") =
      handle_response fromStrSC 404 (Except.ok "b2") :=
  (handle_response_ignores_body_statusCode fromStrSC 404 "b1" "b2"
    { message := some "boom", error := none, status_code := some 999
      validation_errors := [] }
    { message := some "boom", error := none, status_code := some 55
      validation_errors := [] }
    (by decide) rfl rfl rfl rfl rfl).2

/-! ### Claim theorems: config resolution -/

/-- config.rs `Config::resolve` in isolation: for each of base_url,
business_id, token and format the precedence is its flag argument, then
environment variable, then config-file value, then the hardcoded
default ("http://localhost:3000" for base_url, "json" for format, none
for business_id and token).  This is a helper about the function alone;
the program-level claim is settled below against the composition with
the clap-parsed flags of main.rs. -/
theorem config_resolve_precedence (env : String → Option String)
    (file : Config) (fb fbi ft ff : Option String) :
    ((∀ v, fb = some v →
        (Config.resolve env file fb fbi ft ff).base_url = v) ∧
      (fb = none → ∀ v, env "ARKY_BASE_URL" = some v →
        (Config.resolve env file fb fbi ft ff).base_url = v) ∧
      (fb = none → env "ARKY_BASE_URL" = none → ∀ v, file.base_url = some v →
        (Config.resolve env file fb fbi ft ff).base_url = v) ∧
      (fb = none → env "ARKY_BASE_URL" = none → file.base_url = none →
        (Config.resolve env file fb fbi ft ff).base_url =
          "http://localhost:3000")) ∧
    ((∀ v, fbi = some v →
        (Config.resolve env file fb fbi ft ff).business_id = some v) ∧
      (fbi = none → ∀ v, env "ARKY_BUSINESS_ID" = some v →
        (Config.resolve env file fb fbi ft ff).business_id = some v) ∧
      (fbi = none → env "ARKY_BUSINESS_ID" = none →
        ∀ v, file.business_id = some v →
        (Config.resolve env file fb fbi ft ff).business_id = some v) ∧
      (fbi = none → env "ARKY_BUSINESS_ID" = none → file.business_id = none →
        (Config.resolve env file fb fbi ft ff).business_id = none)) ∧
    ((∀ v, ft = some v →
        (Config.resolve env file fb fbi ft ff).token = some v) ∧
      (ft = none → ∀ v, env "ARKY_TOKEN" = some v →
        (Config.resolve env file fb fbi ft ff).token = some v) ∧
      (ft = none → env "ARKY_TOKEN" = none → ∀ v, file.token = some v →
        (Config.resolve env file fb fbi ft ff).token = some v) ∧
      (ft = none → env "ARKY_TOKEN" = none → file.token = none →
        (Config.resolve env file fb fbi ft ff).token = none)) ∧
    ((∀ v, ff = some v →
        (Config.resolve env file fb fbi ft ff).format = v) ∧
      (ff = none → ∀ v, env "ARKY_FORMAT" = some v →
        (Config.resolve env file fb fbi ft ff).format = v) ∧
      (ff = none → env "ARKY_FORMAT" = none → ∀ v, file.format = some v →
        (Config.resolve env file fb fbi ft ff).format = v) ∧
      (ff = none → env "ARKY_FORMAT" = none → file.format = none →
        (Config.resolve env file fb fbi ft ff).format = "json")) := by
  refine ⟨⟨?_, ?_, ?_, ?_⟩, ⟨?_, ?_, ?_, ?_⟩, ⟨?_, ?_, ?_, ?_⟩,
    ⟨?_, ?_, ?_, ?_⟩⟩ <;>
    intros <;> subst_vars <;> simp_all [Config.resolve, Option.orElse]

/-- Environment with only ARKY_BASE_URL set. -/
def envSample : String → Option String := fun n =>
  if n = "ARKY_BASE_URL" then some "http://env" else none

/-- Config file with base_url and business_id set. -/
def fileSample : Config :=
  { base_url := some "http://file", business_id := some "biz_file"
    token := none, format := none }

theorem config_resolve_precedence_witness :
    (Config.resolve envSample fileSample (some "http://flag") none none
        none).base_url = "http://flag" ∧
    (Config.resolve envSample fileSample none none none
        none).base_url = "http://env" ∧
    (Config.resolve envSample fileSample none none none
        none).business_id = some "biz_file" ∧
    (Config.resolve envSample fileSample none none none none).token = none ∧
    (Config.resolve envSample fileSample none none none
        none).format = "json" :=
  ⟨(config_resolve_precedence envSample fileSample (some "http://flag") none
      none none).1.1 _ rfl,
    (config_resolve_precedence envSample fileSample none none none
      none).1.2.1 rfl _ rfl,
    (config_resolve_precedence envSample fileSample none none none
      none).2.1.2.2.1 rfl rfl _ rfl,
    (config_resolve_precedence envSample fileSample none none none
      none).2.2.1.2.2.2 rfl rfl rfl,
    (config_resolve_precedence envSample fileSample none none none
      none).2.2.2.2.2.2 rfl rfl rfl⟩

/-- main.rs:84-93: clap's parsing of the three global flags declared
with only `env = ...`: the command-line value when given, otherwise the
declared environment variable, otherwise absent. -/
def clapFlag (env : String → Option String) (varName : String)
    (argv : Option String) : Option String :=
  argv.orElse fun _ => env varName

/-- main.rs:96: the `format` flag additionally declares
`default_value = "json"`, so clap always yields a value: the command
line, else ARKY_FORMAT, else "json". -/
def clapFormatFlag (env : String → Option String) (argv : Option String) :
    Option String :=
  (argv.orElse fun _ => env "ARKY_FORMAT").orElse fun _ => some "json"

/-- main.rs:210-217: the configuration resolution the program performs —
the clap-parsed flags fed into `Config::resolve` at its only call
site.  `argv…` are the raw command-line flag values. -/
def programResolve (env : String → Option String) (file : Config)
    (argvBase argvBiz argvTok argvFmt : Option String) : ResolvedConfig :=
  Config.resolve env file
    (clapFlag env "ARKY_BASE_URL" argvBase)
    (clapFlag env "ARKY_BUSINESS_ID" argvBiz)
    (clapFlag env "ARKY_TOKEN" argvTok)
    (clapFormatFlag env argvFmt)

/-- Claim C7, counterexample: with the format flag and ARKY_FORMAT both
absent and the config file holding format "table", the program resolves
format to "json", not the config-file value — clap's default_value
makes the format flag always present at Config::resolve's call site, so
the config-file format level of the claimed chain never applies. -/
theorem config_resolution_claim_counterexample :
    (programResolve (fun _ => none) (Config.mk none none none (some "table"))
        none none none none).format = "json" ∧
    ("json" : String) ≠ "table" :=
  ⟨rfl, by decide⟩

/-- Claim C7 as amended: through the program's pipeline (clap flag
parsing composed with Config::resolve), base_url, business_id and token
obey CLI flag > environment variable > config-file value > hardcoded
default ("http://localhost:3000" for base_url, none for business_id and
token); format obeys CLI flag > ARKY_FORMAT > "json", the config-file
format never being consulted because clap's default_value fills the
absent flag. -/
theorem program_config_resolution (env : String → Option String)
    (file : Config) (ab abi atk af : Option String) :
    ((∀ v, ab = some v →
        (programResolve env file ab abi atk af).base_url = v) ∧
      (ab = none → ∀ v, env "ARKY_BASE_URL" = some v →
        (programResolve env file ab abi atk af).base_url = v) ∧
      (ab = none → env "ARKY_BASE_URL" = none → ∀ v, file.base_url = some v →
        (programResolve env file ab abi atk af).base_url = v) ∧
      (ab = none → env "ARKY_BASE_URL" = none → file.base_url = none →
        (programResolve env file ab abi atk af).base_url =
          "http://localhost:3000")) ∧
    ((∀ v, abi = some v →
        (programResolve env file ab abi atk af).business_id = some v) ∧
      (abi = none → ∀ v, env "ARKY_BUSINESS_ID" = some v →
        (programResolve env file ab abi atk af).business_id = some v) ∧
      (abi = none → env "ARKY_BUSINESS_ID" = none →
        ∀ v, file.business_id = some v →
        (programResolve env file ab abi atk af).business_id = some v) ∧
      (abi = none → env "ARKY_BUSINESS_ID" = none → file.business_id = none →
        (programResolve env file ab abi atk af).business_id = none)) ∧
    ((∀ v, atk = some v →
        (programResolve env file ab abi atk af).token = some v) ∧
      (atk = none → ∀ v, env "ARKY_TOKEN" = some v →
        (programResolve env file ab abi atk af).token = some v) ∧
      (atk = none → env "ARKY_TOKEN" = none → ∀ v, file.token = some v →
        (programResolve env file ab abi atk af).token = some v) ∧
      (atk = none → env "ARKY_TOKEN" = none → file.token = none →
        (programResolve env file ab abi atk af).token = none)) ∧
    ((∀ v, af = some v →
        (programResolve env file ab abi atk af).format = v) ∧
      (af = none → ∀ v, env "ARKY_FORMAT" = some v →
        (programResolve env file ab abi atk af).format = v) ∧
      (af = none → env "ARKY_FORMAT" = none →
        (programResolve env file ab abi atk af).format = "json")) := by
  refine ⟨⟨?_, ?_, ?_, ?_⟩, ⟨?_, ?_, ?_, ?_⟩, ⟨?_, ?_, ?_, ?_⟩,
    ⟨?_, ?_, ?_⟩⟩ <;>
    intros <;> subst_vars <;>
    simp_all [programResolve, Config.resolve, clapFlag, clapFormatFlag,
      Option.orElse]

/-- Config file with every precedence-relevant field set, format being
"table". -/
def fileTable : Config :=
  { base_url := some "http://file", business_id := some "biz_file"
    token := none, format := some "table" }

theorem program_config_resolution_witness :
    (programResolve envSample fileTable (some "http://flag") none none
        none).base_url = "http://flag" ∧
    (programResolve envSample fileTable none none none
        none).base_url = "http://env" ∧
    (programResolve envSample fileTable none none none
        none).business_id = some "biz_file" ∧
    (programResolve envSample fileTable none none none none).token = none ∧
    (programResolve envSample fileTable none none none
        none).format = "json" :=
  ⟨(program_config_resolution envSample fileTable (some "http://flag") none
      none none).1.1 _ rfl,
    (program_config_resolution envSample fileTable none none none
      none).1.2.1 rfl _ rfl,
    (program_config_resolution envSample fileTable none none none
      none).2.1.2.2.1 rfl rfl _ rfl,
    (program_config_resolution envSample fileTable none none none
      none).2.2.1.2.2.2 rfl rfl rfl,
    (program_config_resolution envSample fileTable none none none
      none).2.2.2.2.2 rfl rfl⟩

/-! ### Claim theorems: headers -/

/-- Claim C8, counterexample: a client configured with the token "\n"
(so `token` is `some`) sends no Authorization header on JSON calls,
because `HeaderValue::from_str("Bearer \n")` fails and the insertion is
silently skipped. -/
theorem client_headers_claim_counterexample :
    (ArkyClient.mk "http://u" none (some "\n")).token = some "\n" ∧
    hmLookup (ArkyClient.mk "http://u" none (some "\n")).headers
      "authorization" = none ∧
    hmLookup (ArkyClient.mk "http://u" none (some "\n")).auth_headers
      "authorization" = none := by
  refine ⟨rfl, ?_, ?_⟩ <;> rfl

/-- Claim C8 as amended: every JSON call (get/post/put/delete/
delete_with_params) carries content-type and accept application/json
and upload carries accept but no content-type; when a token is
configured whose bearer string is a legal header value, both header
sets carry `Authorization: Bearer <token>` (an illegal bearer string is
silently dropped); with no token, no Authorization header is sent. -/
theorem client_headers_contract (c : ArkyClient) (path : String)
    (params : List (String × String)) (body : Value) :
    ((c.getRequest path params).headers = c.headers ∧
      (c.postRequest path body).headers = c.headers ∧
      (c.putRequest path body).headers = c.headers ∧
      (c.deleteRequest path).headers = c.headers ∧
      (c.deleteWithParamsRequest path params).headers = c.headers ∧
      (c.uploadRequest path).headers = c.auth_headers) ∧
    (hmLookup c.headers "content-type" = some "application/json" ∧
      hmLookup c.headers "accept" = some "application/json" ∧
      hmLookup c.auth_headers "accept" = some "application/json" ∧
      hmLookup c.auth_headers "content-type" = none) ∧
    (∀ t, c.token = some t → isValidHeaderValue ("Bearer " ++ t) = true →
      hmLookup c.headers "authorization" = some ("Bearer " ++ t) ∧
      hmLookup c.auth_headers "authorization" = some ("Bearer " ++ t)) ∧
    (∀ t, c.token = some t → isValidHeaderValue ("Bearer " ++ t) = false →
      hmLookup c.headers "authorization" = none ∧
      hmLookup c.auth_headers "authorization" = none) ∧
    (c.token = none →
      hmLookup c.headers "authorization" = none ∧
      hmLookup c.auth_headers "authorization" = none) := by
  refine ⟨⟨rfl, rfl, rfl, rfl, rfl, rfl⟩, ?_, ?_, ?_, ?_⟩
  · cases htok : c.token with
    | none => simp [ArkyClient.headers, ArkyClient.auth_headers, hmInsert,
        hmLookup, htok]
    | some t =>
      by_cases hval : isValidHeaderValue ("Bearer " ++ t) <;>
        simp [ArkyClient.headers, ArkyClient.auth_headers, hmInsert,
          hmLookup, htok, hval]
  · intro t htok hval
    constructor <;>
      simp [ArkyClient.headers, ArkyClient.auth_headers, hmInsert,
        hmLookup, htok, hval]
  · intro t htok hval
    constructor <;>
      simp [ArkyClient.headers, ArkyClient.auth_headers, hmInsert,
        hmLookup, htok, hval]
  · intro htok
    constructor <;>
      simp [ArkyClient.headers, ArkyClient.auth_headers, hmInsert,
        hmLookup, htok]

theorem client_headers_contract_witness :
    (hmLookup (ArkyClient.mk "http://u" none (some "tok_abc")).headers
        "authorization" = some "Bearer tok_abc" ∧
      hmLookup (ArkyClient.mk "http://u" none (some "tok_abc")).auth_headers
        "authorization" = some "Bearer tok_abc") ∧
    (hmLookup (ArkyClient.mk "http://u" none (some "bad\rtok")).headers
        "authorization" = none ∧
      hmLookup (ArkyClient.mk "http://u" none (some "bad\rtok")).auth_headers
        "authorization" = none) :=
  ⟨(client_headers_contract (ArkyClient.mk "http://u" none (some "tok_abc"))
      "/v1/x" [] Value.null).2.2.1 "tok_abc" rfl (by decide),
    (client_headers_contract (ArkyClient.mk "http://u" none (some "bad\rtok"))
      "/v1/x" [] Value.null).2.2.2.1 "bad\rtok" rfl (by decide)⟩

/-! ### Claim theorems: multipart upload -/

theorem buildFormPartsFrom_ok (mimeParse : String → Except String Unit)
    (files : List (String × List Nat × String)) (i : Nat)
    (h : ∀ f ∈ files, (mimeParse f.2.2).isOk = true) :
    ∃ parts, buildFormPartsFrom mimeParse i files = Except.ok parts ∧
      parts.length = files.length ∧
      parts.map Part.name =
        (List.range files.length).map
          (fun j => "files[" ++ toString (i + j) ++ "]") ∧
      parts.map Part.filename = files.map Prod.fst := by
  induction files generalizing i with
  | nil => exact ⟨[], rfl, rfl, rfl, rfl⟩
  | cons f rest ih =>
    obtain ⟨fn, data, mime⟩ := f
    have hhead : (mimeParse mime).isOk = true := h _ (List.mem_cons_self _ _)
    have htail : ∀ f ∈ rest, (mimeParse f.2.2).isOk = true :=
      fun f hf => h f (List.mem_cons_of_mem _ hf)
    obtain ⟨parts, hparts, hlen, hnames, hfns⟩ := ih (i + 1) htail
    cases hm : mimeParse mime with
    | error e => rw [hm] at hhead; cases hhead
    | ok u =>
      refine ⟨(Part.mk ("files[" ++ toString i ++ "]") fn data mime) :: parts,
        ?_, ?_, ?_, ?_⟩
      · simp only [buildFormPartsFrom, hm, hparts]
      · simp [hlen]
      · simp only [List.map_cons, hnames, List.length_cons,
          List.range_succ_eq_map, List.map_map]
        refine congrArg₂ _ (by simp) ?_
        refine List.map_congr_left fun j _ => ?_
        simp only [Function.comp]
        rw [show i + 1 + j = i + (j + 1) by omega]
      · simp [hfns]

theorem buildFormPartsFrom_err (mimeParse : String → Except String Unit)
    (files : List (String × List Nat × String)) (i : Nat)
    (h : ∃ f ∈ files, (mimeParse f.2.2).isOk = false) :
    ∃ msg, buildFormPartsFrom mimeParse i files =
      Except.error (CliError.invalidInput msg) := by
  induction files generalizing i with
  | nil => simp at h
  | cons f rest ih =>
    obtain ⟨fn, data, mime⟩ := f
    cases hm : mimeParse mime with
    | error e =>
      exact ⟨"Invalid MIME type: " ++ e, by simp [buildFormPartsFrom, hm]⟩
    | ok u =>
      have hrest : ∃ f ∈ rest, (mimeParse f.2.2).isOk = false := by
        obtain ⟨g, hg, hgf⟩ := h
        rcases List.mem_cons.1 hg with hg1 | hg2
        · subst hg1; rw [hm] at hgf; cases hgf
        · exact ⟨g, hg2, hgf⟩
      obtain ⟨msg, hmsg⟩ := ih (i + 1) hrest
      exact ⟨msg, by simp [buildFormPartsFrom, hm, hmsg]⟩

/-- Claim C9: for a non-empty file sequence whose mime types all parse,
the multipart form holds exactly one part per file, named `files[0]`,
`files[1]`, … in the caller-supplied order (part `i` carrying file
`i`'s name); any file with an invalid mime-type string makes `upload`
fail with InvalidInput instead of building a request. -/
theorem upload_part_naming (mimeParse : String → Except String Unit)
    (files : List (String × List Nat × String))
    (_hne : 0 < files.length) :
    ((∀ f ∈ files, (mimeParse f.2.2).isOk = true) →
      ∃ parts, buildFormParts mimeParse files = Except.ok parts ∧
        parts.length = files.length ∧
        parts.map Part.name =
          (List.range files.length).map
            (fun i => "files[" ++ toString i ++ "]") ∧
        parts.map Part.filename = files.map Prod.fst) ∧
    ((∃ f ∈ files, (mimeParse f.2.2).isOk = false) →
      ∃ msg, buildFormParts mimeParse files =
        Except.error (CliError.invalidInput msg)) := by
  constructor
  · intro h
    have := buildFormPartsFrom_ok mimeParse files 0 h
    simpa [buildFormParts] using this
  · intro h
    exact buildFormPartsFrom_err mimeParse files 0 h

/-- Three sample upload files with valid mime types. -/
def sampleFiles : List (String × List Nat × String) :=
  [("a.png", [0], "image/png"), ("b.jpg", [], "image/jpeg"),
    ("c.txt", [1, 2], "text/plain")]

theorem upload_part_naming_witness :
    0 < sampleFiles.length ∧
    ∃ parts, buildFormParts (fun _ => Except.ok ()) sampleFiles =
        Except.ok parts ∧
      parts.length = sampleFiles.length ∧
      parts.map Part.name =
        (List.range sampleFiles.length).map
          (fun i => "files[" ++ toString i ++ "]") ∧
      parts.map Part.filename = sampleFiles.map Prod.fst :=
  ⟨by decide,
    (upload_part_naming (fun _ => Except.ok ()) sampleFiles (by decide)).1
      fun f hf => rfl⟩

end Arky
